import Mathlib

/-!
Verification development for the phone-recommendation repository's caching
core: the ChromaDB-backed `PhoneCache` (src/agents/phone_cache.py), the
cache-or-fetch coordinator `DataFetchAgent` (src/agents/fetch_data.py), and
the record normalizer in `WebScraperAgent` (src/agents/web_scraper.py).

The embedding is shallow: Python dicts holding the fixed metadata fields
become association lists over a `Val` sum type, the Chroma collection
becomes a list of (id, document, metadata) entries with upsert-by-id
semantics, floating point becomes `ℚ`, and the external nearest-neighbour
engine (Chroma's `collection.query`) is a function parameter constrained
only by its interface contract. Exceptions from collaborators are modelled
as `Option` results.
-/

namespace PhoneRec

/-- A Python value stored in a metadata dict: string, int, or float. -/
inductive Val where
  | s : String → Val
  | i : ℤ → Val
  | f : ℚ → Val
deriving DecidableEq

/-- A metadata dict, as an association list in insertion order
(Python dicts preserve insertion order; assigning a fresh key appends). -/
abbrev Meta : Type := List (String × Val)

/-- The keys of a metadata dict. -/
def Meta.keys (m : Meta) : List String := m.map Prod.fst

/-- A normalized phone record, as produced by
`WebScraperAgent._structure_flipkart_data` (web_scraper.py lines 325-341).
These structured dicts are what `PhoneCache.add_phones` receives in this
program, so its `phone.get(...)` calls with defaults and `str`/`int`/`float`
coercions act as the identity on these fields. -/
structure Phone where
  full_name : String
  brand : String
  model : String
  price : ℤ
  rating : ℚ
  ram : ℤ
  storage : ℤ
  camera_mp : ℤ
  battery_mah : ℤ
  display_inches : ℚ
  processor : String
  category : String
  source : String
  url : String
  description : String
deriving DecidableEq

/-- Python `str.lower()`, character by character. -/
def lowerStr (s : String) : String := ⟨s.data.map Char.toLower⟩

/-- Character replacement used when deriving a cache id:
`.replace(' ', '_').replace('/', '_').replace(':', '_')` acts per character. -/
def idChar (c : Char) : Char :=
  if c = ' ' ∨ c = '/' ∨ c = ':' then '_' else c

/-- `PhoneCache.add_phones` id derivation (phone_cache.py lines 156-162):
base is `full_name` when non-empty (Python `or` falls through on the empty
string), else `brand_model`; append `__url` when the url is non-empty; then
replace space, slash and colon by underscores and lower-case. -/
def phoneId (p : Phone) : String :=
  let base := if p.full_name ≠ "" then p.full_name else p.brand ++ "_" ++ p.model
  let uid := if p.url ≠ "" then base ++ "__" ++ p.url else base
  lowerStr ⟨uid.data.map idChar⟩

/-- The searchable document built by `add_phones` (phone_cache.py lines
168-175, lower-cased at line 197): space-joined name, brand, model,
processor, description. -/
def searchDoc (p : Phone) : String :=
  lowerStr (String.intercalate " "
    [p.full_name, p.brand, p.model, p.processor, p.description])

/-- The metadata dict stored by `add_phones` (phone_cache.py lines 178-194),
in the source's key order. -/
def phoneMeta (p : Phone) : Meta :=
  [("full_name", Val.s p.full_name),
   ("brand", Val.s p.brand),
   ("model", Val.s p.model),
   ("price", Val.i p.price),
   ("rating", Val.f p.rating),
   ("ram", Val.i p.ram),
   ("storage", Val.i p.storage),
   ("camera_mp", Val.i p.camera_mp),
   ("battery_mah", Val.i p.battery_mah),
   ("display_inches", Val.f p.display_inches),
   ("processor", Val.s p.processor),
   ("category", Val.s p.category),
   ("source", Val.s p.source),
   ("url", Val.s p.url),
   ("description", Val.s p.description)]

/-- One entry of the Chroma collection: id, document, metadata. -/
structure Entry where
  id : String
  doc : String
  meta : Meta
deriving DecidableEq

/-- The Chroma collection backing `PhoneCache`, as its list of entries. -/
structure Collection where
  entries : List Entry
deriving DecidableEq

/-- `collection.count()`. -/
def Collection.count (c : Collection) : ℕ := c.entries.length

/-- The stored ids, in insertion order. -/
def Collection.ids (c : Collection) : List String := c.entries.map Entry.id

/-- Upsert of a single entry, keyed by id: overwrite the entry holding this
id when present, else append. -/
def Collection.upsertOne (c : Collection) (e : Entry) : Collection :=
  if e.id ∈ c.ids then
    ⟨c.entries.map fun x => if x.id = e.id then e else x⟩
  else ⟨c.entries ++ [e]⟩

/-- `collection.upsert(ids, documents, metadatas)` on a batch of pairwise
distinct ids: upsert entry by entry. Chroma validates the id list and
raises `DuplicateIDError` when the batch repeats an id, so `add_phones`
only reaches this operation with distinct ids (the duplicate batch is
modelled there as the caught-exception return). -/
def Collection.upsert (c : Collection) (es : List Entry) : Collection :=
  es.foldl Collection.upsertOne c

/-- `PhoneCache.get_all_cached_phones` (phone_cache.py lines 218-245):
every stored metadata dict, in storage order. -/
def get_all_cached_phones (c : Collection) : List Meta :=
  c.entries.map Entry.meta

/-- The entry `add_phones` builds for one phone: derived id, lower-cased
document, metadata dict. -/
def mkEntry (p : Phone) : Entry := ⟨phoneId p, searchDoc p, phoneMeta p⟩

/-- `PhoneCache.add_phones` (phone_cache.py lines 127-216), specialized to
the structured records it receives. The duplicate-skip at lines 145-166 is
dead code in the source: `collection.get(include=["ids"])` raises ("ids"
is not a valid include value) so the `except` leaves `existing_ids` empty,
and even a successful `get` would be iterated character by character by the
nested loop — hence no input record is ever skipped. Every phone becomes an
entry; Chroma's `upsert` then raises `DuplicateIDError` when the batch
repeats an id, which the outer `except` (line 214) turns into a 0 return
with the store untouched; otherwise the batch is upserted (overwrite by
id) and the batch size `len(ids)` is returned. -/
def add_phones (c : Collection) (phones : List Phone) : Collection × ℕ :=
  if phones = [] then (c, 0)
  else
    let newEntries := phones.map mkEntry
    if (newEntries.map Entry.id).Nodup then
      (c.upsert newEntries, newEntries.length)
    else (c, 0)

/-- `WebScraperAgent._categorize_phone` (web_scraper.py lines 421-428). -/
def categorize_phone (price : ℤ) : String :=
  if price < 15000 then "Budget"
  else if price < 35000 then "Mid-range"
  else "Flagship"

/-! ## Cache search (`PhoneCache.search_in_cache`, phone_cache.py 61-125) -/

/-- Round to two decimal places, as `round(x, 2)` does on the scores the
cache computes. Mathematically `round(100 x) / 100` with round-half-up;
binary floats essentially never sit on an exact tie, so the tie-breaking
direction is immaterial to the embedding. -/
def round2 (x : ℚ) : ℚ := (⌊x * 100 + 1 / 2⌋ : ℚ) / 100

/-- The relevance score attached to a search hit at vector distance `d`
(phone_cache.py line 112): `round(max(0.0, 1.0 - distance) * 100.0, 2)`. -/
def score (d : ℚ) : ℚ := round2 (max 0 (1 - d) * 100)

/-- The nearest-neighbour engine behind `collection.query`: given the query
text and the requested number of results it yields (metadata, distance)
pairs, the distance being absent when the engine omits it. Chroma is an
external collaborator, so it stays a parameter constrained only by
interface hypotheses in the theorems. -/
def QueryFn : Type := String → ℕ → List (Meta × Option ℚ)

/-- Augmentation of one returned metadata dict (phone_cache.py lines
106-118): when a distance is present, assign the `_distance` and `_score`
keys (fresh keys append, in that order); otherwise return the dict as is. -/
def augmentHit : Meta × Option ℚ → Meta
  | (m, none) => m
  | (m, some d) => m ++ [("_distance", Val.f d), ("_score", Val.f (score d))]

/-- `PhoneCache.search_in_cache` (phone_cache.py lines 61-125), also
reporting whether the nearest-neighbour engine was consulted: an empty
collection short-circuits to `[]` before any query; otherwise the engine is
asked for `min(limit, count)` results and each hit is augmented with its
distance and score. An engine answer with no ids also yields `[]`. -/
def searchTrace (c : Collection) (qf : QueryFn) (query : String) (limit : ℕ) :
    List Meta × Bool :=
  if c.count = 0 then ([], false)
  else if qf query (min limit c.count) = [] then ([], true)
  else ((qf query (min limit c.count)).map augmentHit, true)

/-- The result list of `search_in_cache`. -/
def search_in_cache (c : Collection) (qf : QueryFn) (query : String)
    (limit : ℕ) : List Meta :=
  (searchTrace c qf query limit).1

/-! ## Query enhancement (`DataFetchAgent._enhance_query_with_ai`,
fetch_data.py 151-189) -/

/-- The apostrophe character, which Python's final `.strip("'")` removes. -/
def squote : Char := Char.ofNat 39

/-- Python `str.strip(c)`: drop every leading and trailing occurrence of the
character satisfying `p`. -/
def stripBy (p : Char → Bool) (l : List Char) : List Char :=
  ((l.dropWhile p).reverse.dropWhile p).reverse

/-- `response.text.strip().strip('"').strip("'")` (fetch_data.py line 178):
strip whitespace, then double quotes, then single quotes. -/
def cleanResponse (t : String) : List Char :=
  stripBy (fun c => c = squote) (stripBy (fun c => c = '"')
    (stripBy Char.isWhitespace t.data))

/-- `DataFetchAgent._enhance_query_with_ai` (fetch_data.py lines 151-189):
with no model or an empty query, return the query unchanged; a `none`
response models the exception path, also returning the query; otherwise the
cleaned response is kept unless it is empty or longer than 50 characters,
in which case the original query is returned. -/
def enhance_query_with_ai (modelAvail : Bool) (query : String)
    (resp : Option String) : String :=
  if ¬modelAvail ∨ query = "" then query
  else
    match resp with
    | none => query
    | some t =>
      let e := cleanResponse t
      if 50 < e.length ∨ e = [] then query else ⟨e⟩

/-! ## Cache-or-fetch coordination (`DataFetchAgent.scrape_live_phones`,
fetch_data.py 61-119) -/

/-- Observable collaborator events of one `scrape_live_phones` call, in
order: consulting the cache, and invoking the web scraper. -/
inductive FetchEvent where
  | cacheLookup : FetchEvent
  | scrapeCall : FetchEvent
deriving DecidableEq

/-- The outcome of one `scrape_live_phones` call: the returned rows (the
DataFrame contents), whether they came from the cache, the collaborator
events in the order they happened, and the cache afterwards. -/
structure FetchOutcome where
  phones : List Meta
  fromCache : Bool
  events : List FetchEvent
  newCache : Collection
deriving DecidableEq

/-- `DataFetchAgent.scrape_live_phones` (fetch_data.py lines 61-119): the
query is first enhanced, the cache is searched with the enhanced query and
`limit = max_phones`; a non-empty cache answer is returned as cache-sourced
and nothing else runs. Otherwise the scraper is invoked (`none` models its
exception path, caught and yielding an empty frame); a non-empty scrape is
added to the cache and returned as freshly scraped. A missing scraper
(`scraperAvail = false`) yields an empty frame without a scrape call. -/
def scrape_live_phones (cache : Collection) (qf : QueryFn)
    (modelAvail : Bool) (aiResp : Option String) (scraperAvail : Bool)
    (scrapeFn : String → ℕ → Option (List Phone))
    (query : String) (maxPhones : ℕ) : FetchOutcome :=
  let enhanced := enhance_query_with_ai modelAvail query aiResp
  let cached := search_in_cache cache qf enhanced maxPhones
  if cached ≠ [] then
    ⟨cached, true, [FetchEvent.cacheLookup], cache⟩
  else if ¬scraperAvail then
    ⟨[], false, [FetchEvent.cacheLookup], cache⟩
  else
    match scrapeFn enhanced maxPhones with
    | none => ⟨[], false, [FetchEvent.cacheLookup, FetchEvent.scrapeCall], cache⟩
    | some scraped =>
      if scraped ≠ [] then
        ⟨scraped.map phoneMeta, false,
         [FetchEvent.cacheLookup, FetchEvent.scrapeCall],
         (add_phones cache scraped).1⟩
      else
        ⟨[], false, [FetchEvent.cacheLookup, FetchEvent.scrapeCall], cache⟩

/-! ## Record normalization (`WebScraperAgent._structure_flipkart_data`,
web_scraper.py 281-346) -/

/-- A raw scraped listing, with the fields `_structure_flipkart_data`
reads: `name`, `price`, `rating`, `features`, `url`, and `description`
(already defaulted to "N/A" by the scraping layer when absent). -/
structure RawProduct where
  name : String
  price : String
  rating : String
  features : List String
  url : String
  description : String

/-- The six spec fields handed to `_structure_flipkart_data` by
`_extract_specs_with_ai` / `_extract_specs_regex`, defaults applied. -/
structure Specs where
  ram : ℤ
  storage : ℤ
  camera_mp : ℤ
  battery_mah : ℤ
  display_inches : ℚ
  processor : String

/-- Python's substring test `pat in hay`. -/
def containsSub (hay pat : String) : Bool := decide (pat.data <:+: hay.data)

/-- The accessory keywords filtered out (web_scraper.py lines 286-288). -/
def excludeKeywords : List String :=
  ["case", "cover", "charger", "cable", "screen guard", "protector",
   "earphone", "headphone", "adapter", "battery", "power bank", "stand",
   "holder", "tempered glass", "pouch", "flip cover", "back cover"]

/-- The phone keywords at least one of which must appear (web_scraper.py
lines 300-302). -/
def phoneKeywords : List String :=
  ["phone", "mobile", "smartphone", "iphone", "galaxy", "redmi",
   "realme", "oneplus", "vivo", "oppo", "poco", "nokia", "motorola",
   "samsung", "xiaomi", "nothing", "iqoo", "pixel"]

/-- The first maximal run of characters satisfying `p`, as `re.search`
finds for a `[p]+` pattern; `[]` when there is no match. -/
def firstRunBy (p : Char → Bool) : List Char → List Char
  | [] => []
  | c :: rest =>
    if p c then (c :: rest).takeWhile p else firstRunBy p rest

/-- Decimal value of a run of digit characters, as Python `int`. -/
def digitsToNat (l : List Char) : ℕ :=
  l.foldl (fun a c => a * 10 + (c.toNat - 48)) 0

/-- Price parsing (web_scraper.py lines 309-310): drop the rupee sign and
the comma separators, then take the first run of digits as the price;
`0` when the text has no digit. -/
def parsePrice (s : String) : ℕ :=
  let cleaned := s.data.filter fun c => ¬(c = '₹' ∨ c = ',')
  let run := firstRunBy Char.isDigit cleaned
  if run = [] then 0 else digitsToNat run

/-- Python `float` on a run of digit/dot characters: an integer part, an
optional fractional part, at most one dot, not both parts empty; `none`
models the `ValueError` path. -/
def parseFloat (l : List Char) : Option ℚ :=
  match l.splitOn '.' with
  | [w] => if w ≠ [] ∧ w.all Char.isDigit then some (digitsToNat w) else none
  | [w, fr] =>
    if (w ≠ [] ∨ fr ≠ []) ∧ w.all Char.isDigit ∧ fr.all Char.isDigit then
      some ((digitsToNat w : ℚ) + (digitsToNat fr : ℚ) / 10 ^ fr.length)
    else none
  | _ => none

/-- Rating parsing (web_scraper.py lines 318-319): the first `[\d.]+` run,
read as a float; `0.0` when the text has no such run; `none` models
`float` raising on a malformed run, caught by the loop's `except`. -/
def parseRating (s : String) : Option ℚ :=
  let run := firstRunBy (fun c => c.isDigit || c == '.') s.data
  if run = [] then some 0 else parseFloat run

/-- Python `str.split()`: split on whitespace runs, dropping empties. -/
def pySplit (s : String) : List (List Char) :=
  (s.data.splitOnP Char.isWhitespace).filter (· ≠ [])

/-- Space-joined words, for `' '.join(name.split()[1:])`. -/
def joinWords (ws : List (List Char)) : String :=
  String.intercalate " " (ws.map fun w => ⟨w⟩)

/-- The processor field expression (web_scraper.py line 336): the extracted
processor when it is not "Unknown"; otherwise the name's last word when
the name mentions a known chip family, else "Unknown". `none` models
`split()[-1]` raising on a wordless name. -/
def processorField (name : String) (specs : Specs) : Option String :=
  if specs.processor ≠ "Unknown" then some specs.processor
  else if containsSub name "Snapdragon" ∨ containsSub name "Dimensity" ∨
      containsSub name "Bionic" then
    match (pySplit name).getLast? with
    | none => none
    | some w => some ⟨w⟩
  else some "Unknown"

/-- One loop iteration of `_structure_flipkart_data` (web_scraper.py lines
290-344) on a raw listing with its extracted specs: `none` when the listing
is skipped (accessory keyword, no phone keyword, price out of `[5000,
200000]`) or when the iteration raises and the surrounding `except`
drops it. Otherwise the structured record. -/
def structureOne (prod : RawProduct) (specs : Specs) : Option Phone :=
  let nameL := lowerStr prod.name
  if excludeKeywords.any (fun k => containsSub nameL k) then none
  else if ¬ phoneKeywords.any (fun k => containsSub nameL k) then none
  else
    let price := parsePrice prod.price
    if price < 5000 ∨ 200000 < price then none
    else
      match parseRating prod.rating with
      | none => none
      | some rating =>
        match processorField prod.name specs with
        | none => none
        | some proc =>
          if 0 < price then
            match (if prod.name ≠ "N/A" then (pySplit prod.name).head?
                   else some "Unknown".data) with
            | none => none
            | some brandChars =>
              some
                { full_name := prod.name
                  brand := ⟨brandChars⟩
                  model := if prod.name ≠ "N/A" then
                      joinWords (pySplit prod.name).tail
                    else "Unknown"
                  price := (price : ℤ)
                  rating := rating
                  ram := specs.ram
                  storage := specs.storage
                  camera_mp := specs.camera_mp
                  battery_mah := specs.battery_mah
                  display_inches := specs.display_inches
                  processor := proc
                  category := categorize_phone (price : ℤ)
                  source := "Flipkart"
                  url := prod.url
                  description := prod.description }
          else none

/-! ## Concrete data shared by the witnesses -/

/-- A concrete normalized record used by several witnesses. -/
def samplePhone : Phone :=
  { full_name := "acme one", brand := "acme", model := "one",
    price := 9999, rating := 4, ram := 8, storage := 128,
    camera_mp := 50, battery_mah := 5000, display_inches := 6,
    processor := "chipA", category := "Budget", source := "Flipkart",
    url := "u/1", description := "good phone" }

/-- A one-record store used by several witnesses. -/
def sampleStore : Collection := ⟨[mkEntry samplePhone]⟩

/-- A nearest-neighbour engine used by several witnesses: it always returns
the sample record at distance 0. -/
def sampleQf : QueryFn := fun _ _ => [(phoneMeta samplePhone, some (0 : ℚ))]

/-! ## Auxiliary lemmas -/

/-- Two stores with the same entry list are the same store. -/
theorem Collection.entries_inj {a b : Collection}
    (h : a.entries = b.entries) : a = b := by
  cases a
  cases b
  cases h
  rfl

/-- Overwriting by id leaves the stored id list unchanged. -/
theorem map_id_replace (l : List Entry) (e : Entry) :
    ((l.map fun x => if x.id = e.id then e else x).map Entry.id)
      = l.map Entry.id := by
  induction l with
  | nil => rfl
  | cons x rest ih =>
    by_cases hx : x.id = e.id
    · simp [hx, ih]
    · simp [hx, ih]

/-- Overwriting by id twice is overwriting once. -/
theorem replace_idem (l : List Entry) (e : Entry) :
    ((l.map fun x => if x.id = e.id then e else x).map
        fun x => if x.id = e.id then e else x)
      = l.map fun x => if x.id = e.id then e else x := by
  induction l with
  | nil => rfl
  | cons x rest ih =>
    by_cases hx : x.id = e.id
    · simp [hx, ih]
    · simp [hx, ih]

/-- Overwriting an id absent from the list changes nothing. -/
theorem replace_fresh (l : List Entry) (e : Entry)
    (h : e.id ∉ l.map Entry.id) :
    (l.map fun x => if x.id = e.id then e else x) = l := by
  induction l with
  | nil => rfl
  | cons x rest ih =>
    simp only [List.map_cons, List.mem_cons] at h
    push_neg at h
    simp only [List.map_cons]
    rw [if_neg fun hx => h.1 hx.symm, ih h.2]

/-- The two branches of `upsertOne`: overwrite when the id is stored,
append when it is fresh. -/
theorem upsertOne_entries (c : Collection) (e : Entry) :
    (e.id ∈ c.ids →
      (c.upsertOne e).entries
        = c.entries.map fun x => if x.id = e.id then e else x) ∧
    (e.id ∉ c.ids → (c.upsertOne e).entries = c.entries ++ [e]) := by
  constructor
  · intro h
    unfold Collection.upsertOne
    rw [if_pos h]
  · intro h
    unfold Collection.upsertOne
    rw [if_neg h]

/-- In a store with pairwise-distinct ids, a stored id selects exactly one
entry. -/
theorem filter_id_singleton (l : List Entry) (pid : String)
    (hmem : pid ∈ l.map Entry.id) (hnd : (l.map Entry.id).Nodup) :
    (l.filter fun e => e.id = pid).length = 1 := by
  induction l with
  | nil => simp at hmem
  | cons e rest ih =>
    simp only [List.map_cons, List.nodup_cons] at hnd
    by_cases he : e.id = pid
    · have hrest : (rest.filter fun x => x.id = pid) = [] := by
        rw [List.filter_eq_nil_iff]
        intro x hx hcontra
        apply hnd.1
        have : x.id = e.id := by
          simp only [decide_eq_true_eq] at hcontra
          rw [hcontra, he]
        exact this ▸ List.mem_map_of_mem Entry.id hx
      simp [List.filter_cons, he, hrest]
    · have hmem' : pid ∈ rest.map Entry.id := by
        rcases List.mem_cons.1 hmem with h | h
        · exact absurd h.symm he
        · exact h
      simp only [List.filter_cons, decide_eq_true_eq, he, if_false]
      exact ih hmem' hnd.2

/-- A single-record `add_phones` call is one `upsertOne`, reporting one
phone added. -/
theorem add_phones_singleton (c : Collection) (p : Phone) :
    add_phones c [p] = (c.upsertOne (mkEntry p), 1) := by
  simp [add_phones, Collection.upsert]

/-! ## Theorems -/

/-- C6: category derivation is a pure total function of integer price:
below 15000 it yields "Budget", from 15000 up to but excluding 35000 it
yields "Mid-range", and from 35000 on it yields "Flagship". -/
theorem categorize_phone_spec (p : ℤ) :
    (p < 15000 → categorize_phone p = "Budget") ∧
    (15000 ≤ p ∧ p < 35000 → categorize_phone p = "Mid-range") ∧
    (35000 ≤ p → categorize_phone p = "Flagship") := by
  unfold categorize_phone
  refine ⟨fun h => ?_, fun h => ?_, fun h => ?_⟩
  · rw [if_pos h]
  · rw [if_neg (by omega), if_pos h.2]
  · rw [if_neg (by omega), if_neg (by omega)]

/-- Witness for C6 at the three concrete prices 9999, 20000 and 50000. -/
theorem categorize_phone_spec_witness :
    categorize_phone 9999 = "Budget" ∧
    categorize_phone 20000 = "Mid-range" ∧
    categorize_phone 50000 = "Flagship" :=
  ⟨(categorize_phone_spec 9999).1 (by decide),
   (categorize_phone_spec 20000).2.1 (by decide),
   (categorize_phone_spec 50000).2.2 (by decide)⟩

/-- C3: searching an empty store returns `[]` for every query, every limit
and every behaviour of the nearest-neighbour engine, and the engine is
never consulted. -/
theorem search_empty_cache (c : Collection) (qf : QueryFn) (q : String)
    (l : ℕ) (h : c.count = 0) :
    search_in_cache c qf q l = [] ∧ (searchTrace c qf q l).2 = false := by
  unfold search_in_cache searchTrace
  rw [if_pos h]
  exact ⟨rfl, rfl⟩

/-- Witness for C3: the empty collection, an arbitrary query and limit, and
an engine that would misbehave if consulted. -/
theorem search_empty_cache_witness :
    (Collection.mk []).count = 0 ∧
    (search_in_cache ⟨[]⟩ (fun _ n => List.replicate (n + 1) ([], none))
        "best gaming phone" 20 = [] ∧
     (searchTrace ⟨[]⟩ (fun _ n => List.replicate (n + 1) ([], none))
        "best gaming phone" 20).2 = false) :=
  ⟨rfl, search_empty_cache ⟨[]⟩ _ _ _ rfl⟩

/-- C8: a raw listing whose lower-cased name contains "case" or "cover" is
rejected by the normalizer whatever its other fields and whatever specs
were extracted. -/
theorem accessory_name_rejected (prod : RawProduct) (specs : Specs)
    (h : containsSub (lowerStr prod.name) "case" = true ∨
         containsSub (lowerStr prod.name) "cover" = true) :
    structureOne prod specs = none := by
  have hk : (excludeKeywords.any fun k => containsSub (lowerStr prod.name) k)
      = true := by
    rcases h with h | h
    · exact List.any_eq_true.2 ⟨"case", by decide, h⟩
    · exact List.any_eq_true.2 ⟨"cover", by decide, h⟩
  simp [structureOne, hk]

/-- Witness for C8: an iPhone-branded silicone case with a plausible price
is still rejected. -/
theorem accessory_name_rejected_witness :
    (containsSub (lowerStr "iPhone 15 Silicone Case") "case" = true ∨
     containsSub (lowerStr "iPhone 15 Silicone Case") "cover" = true) ∧
    structureOne
      ⟨"iPhone 15 Silicone Case", "₹1,999", "4.3", ["Rubber"], "u", "d"⟩
      ⟨8, 128, 50, 5000, 6, "Unknown"⟩ = none :=
  ⟨Or.inl (by decide),
   accessory_name_rejected _ _ (Or.inl (by decide))⟩

/-- C9: the query enhancer is never worse than a no-op: with no model the
raw query is returned unchanged, the exception path returns it unchanged,
and a cleaned response that is empty or longer than 50 characters is
discarded in favour of the raw query. -/
theorem enhance_query_fallback :
    (∀ (q : String) (resp : Option String),
      enhance_query_with_ai false q resp = q) ∧
    (∀ (avail : Bool) (q : String), enhance_query_with_ai avail q none = q) ∧
    (∀ (avail : Bool) (q t : String),
      50 < (cleanResponse t).length ∨ cleanResponse t = [] →
      enhance_query_with_ai avail q (some t) = q) := by
  refine ⟨fun q resp => ?_, fun avail q => ?_, fun avail q t h => ?_⟩
  · simp [enhance_query_with_ai]
  · unfold enhance_query_with_ai
    split_ifs <;> rfl
  · unfold enhance_query_with_ai
    by_cases h1 : ¬avail = true ∨ q = ""
    · rw [if_pos h1]
    · rw [if_neg h1]
      show (if 50 < (cleanResponse t).length ∨ cleanResponse t = []
            then q else ⟨cleanResponse t⟩) = q
      rw [if_pos h]

/-- Witness for C9: no model, exception path, and an over-long response,
each on a concrete query. -/
theorem enhance_query_fallback_witness :
    enhance_query_with_ai false "camera phone" (some "better query")
      = "camera phone" ∧
    enhance_query_with_ai true "camera phone" none = "camera phone" ∧
    (50 <
      (cleanResponse
        "certainly, here is an enhanced query for your phone search").length ∧
     enhance_query_with_ai true "camera phone"
       (some "certainly, here is an enhanced query for your phone search")
       = "camera phone") :=
  ⟨enhance_query_fallback.1 _ _, enhance_query_fallback.2.1 _ _,
   by decide,
   enhance_query_fallback.2.2 true "camera phone" _ (Or.inl (by decide))⟩

/-- C7: price parsing strips the currency sign and the separators and takes
the first digit run, so "₹45,999" parses to 45999; a price text with no
digits parses to 0, and a record whose price parses to 0 is rejected by
the normalizer. -/
theorem parse_price_spec :
    parsePrice "₹45,999" = 45999 ∧
    (∀ s : String, s.data.all (fun c => !c.isDigit) = true →
      parsePrice s = 0) ∧
    (∀ (prod : RawProduct) (specs : Specs), parsePrice prod.price = 0 →
      structureOne prod specs = none) := by
  refine ⟨by decide, fun s h => ?_, fun prod specs h => ?_⟩
  · have hrun : firstRunBy Char.isDigit
        (s.data.filter fun c => ¬(c = '₹' ∨ c = ',')) = [] := by
      have hall : ∀ c ∈ s.data.filter fun c => ¬(c = '₹' ∨ c = ','),
          Char.isDigit c = false := by
        intro c hc
        have := List.all_eq_true.1 h c (List.mem_of_mem_filter hc)
        simpa using this
      generalize s.data.filter _ = l at hall ⊢
      induction l with
      | nil => rfl
      | cons c rest ih =>
        unfold firstRunBy
        rw [hall c (List.mem_cons_self c rest)]
        exact ih fun x hx => hall x (List.mem_cons_of_mem c hx)
    simp only [parsePrice]
    rw [hrun]
    simp
  · simp only [structureOne, h]
    split_ifs <;> first | rfl | (exfalso; omega)

/-- Witness for C7: the digit-free price text "Price on request" parses to
0 and the listing carrying it is rejected. -/
theorem parse_price_spec_witness :
    ("Price on request".data.all (fun c => !c.isDigit) = true ∧
     parsePrice "Price on request" = 0) ∧
    (parsePrice "Price on request" = 0 ∧
     structureOne
       ⟨"acme phone", "Price on request", "4.3", ["8GB RAM"], "u", "d"⟩
       ⟨8, 128, 50, 5000, 6, "Unknown"⟩ = none) :=
  ⟨⟨by decide, parse_price_spec.2.1 _ (by decide)⟩,
   ⟨parse_price_spec.2.1 _ (by decide),
    parse_price_spec.2.2 _ _ (parse_price_spec.2.1 _ (by decide))⟩⟩

/-- C2: upsert is idempotent on store contents: for every normalized
record and every store with distinct ids, a second `add_phones` of the
same record re-upserts identical content, so the store is unchanged —
same contents, same count — and the store holds exactly one entry under
that identity key: the overwrite-by-id never duplicates. -/
theorem add_phones_idempotent (c : Collection) (p : Phone)
    (hnd : c.ids.Nodup) :
    (add_phones (add_phones c [p]).1 [p]).1 = (add_phones c [p]).1 ∧
    ((add_phones (add_phones c [p]).1 [p]).1).count
      = ((add_phones c [p]).1).count ∧
    (((add_phones c [p]).1).entries.filter
      fun e => e.id = phoneId p).length = 1 := by
  have h1 := add_phones_singleton c p
  have h2 := add_phones_singleton (c.upsertOne (mkEntry p)) p
  by_cases hmem : (mkEntry p).id ∈ c.ids
  · have hent1 : (c.upsertOne (mkEntry p)).entries
        = c.entries.map fun x =>
            if x.id = (mkEntry p).id then mkEntry p else x :=
      (upsertOne_entries c (mkEntry p)).1 hmem
    have hids1 : (c.upsertOne (mkEntry p)).ids = c.ids := by
      show (c.upsertOne (mkEntry p)).entries.map Entry.id = c.ids
      rw [hent1]
      exact map_id_replace c.entries (mkEntry p)
    have hmem1 : (mkEntry p).id ∈ (c.upsertOne (mkEntry p)).ids := by
      rw [hids1]; exact hmem
    have hent2 : ((c.upsertOne (mkEntry p)).upsertOne (mkEntry p)).entries
        = (c.upsertOne (mkEntry p)).entries := by
      rw [(upsertOne_entries _ (mkEntry p)).1 hmem1, hent1]
      exact replace_idem c.entries (mkEntry p)
    have hcc : (c.upsertOne (mkEntry p)).upsertOne (mkEntry p)
        = c.upsertOne (mkEntry p) := Collection.entries_inj hent2
    refine ⟨?_, ?_, ?_⟩
    · rw [h1, h2]; exact hcc
    · rw [h1, h2]; exact congrArg Collection.count hcc
    · rw [h1]
      refine filter_id_singleton (c.upsertOne (mkEntry p)).entries
        (phoneId p) hmem1 ?_
      show ((c.upsertOne (mkEntry p)).ids).Nodup
      rw [hids1]
      exact hnd
  · have hent1 : (c.upsertOne (mkEntry p)).entries
        = c.entries ++ [mkEntry p] :=
      (upsertOne_entries c (mkEntry p)).2 hmem
    have hids1 : (c.upsertOne (mkEntry p)).ids
        = c.ids ++ [(mkEntry p).id] := by
      show (c.upsertOne (mkEntry p)).entries.map Entry.id = _
      rw [hent1]
      simp [Collection.ids]
    have hmem1 : (mkEntry p).id ∈ (c.upsertOne (mkEntry p)).ids := by
      rw [hids1]; exact List.mem_append_right _ (List.mem_singleton_self _)
    have hnd1 : (c.upsertOne (mkEntry p)).ids.Nodup := by
      rw [hids1]
      simp only [List.nodup_append, List.nodup_cons, List.not_mem_nil,
        not_false_iff, List.nodup_nil, and_true, List.mem_singleton]
      refine ⟨hnd, by simp, ?_⟩
      intro a ha hcontra
      rw [List.mem_singleton] at hcontra
      exact hmem (hcontra ▸ ha)
    have hent2 : ((c.upsertOne (mkEntry p)).upsertOne (mkEntry p)).entries
        = (c.upsertOne (mkEntry p)).entries := by
      rw [(upsertOne_entries _ (mkEntry p)).1 hmem1, hent1, List.map_append]
      rw [replace_fresh c.entries (mkEntry p) hmem]
      simp
    have hcc : (c.upsertOne (mkEntry p)).upsertOne (mkEntry p)
        = c.upsertOne (mkEntry p) := Collection.entries_inj hent2
    refine ⟨?_, ?_, ?_⟩
    · rw [h1, h2]; exact hcc
    · rw [h1, h2]; exact congrArg Collection.count hcc
    · rw [h1]
      exact filter_id_singleton (c.upsertOne (mkEntry p)).entries
        (phoneId p) hmem1 hnd1

/-- Witness for C2: adding the sample record twice to the empty store. -/
theorem add_phones_idempotent_witness :
    (Collection.mk []).ids.Nodup ∧
    ((add_phones (add_phones ⟨[]⟩ [samplePhone]).1 [samplePhone]).1
        = (add_phones ⟨[]⟩ [samplePhone]).1 ∧
     ((add_phones (add_phones ⟨[]⟩ [samplePhone]).1 [samplePhone]).1).count
        = ((add_phones ⟨[]⟩ [samplePhone]).1).count ∧
     (((add_phones ⟨[]⟩ [samplePhone]).1).entries.filter
        fun e => e.id = phoneId samplePhone).length = 1) :=
  ⟨List.nodup_nil, add_phones_idempotent ⟨[]⟩ samplePhone List.nodup_nil⟩

/-- C5, at a failing input: the duplicate-skip of `add_phones`
(phone_cache.py lines 145-166) is dead code — `existing_ids` is always
left empty because `collection.get(include=["ids"])` raises and the
fallback loop iterates the characters of each id — so re-adding the
already-cached sample record is not skipped: the call reports 1 phone
added (the batch size) although the store count is unchanged and nothing
was newly persisted, where the claim requires 0. -/
theorem add_phones_no_skip_bug :
    (add_phones sampleStore [samplePhone]).2 = 1 ∧
    ((add_phones sampleStore [samplePhone]).1).count = sampleStore.count ∧
    (add_phones sampleStore [samplePhone]).2
      ≠ ((add_phones sampleStore [samplePhone]).1).count
        - sampleStore.count := by
  refine ⟨by decide, by decide, by decide⟩

/-- Counterexample for C4: at distance 1/3 the attached score is the
two-decimal rounding 66.67, not the exact value `max (0, 1 - d) * 100 =
200/3`, so the claimed equality fails. -/
theorem score_rounding_cex :
    score (1 / 3) ≠ max 0 (1 - (1 / 3 : ℚ)) * 100 := by
  have h1 : max 0 (1 - (1 / 3 : ℚ)) = 2 / 3 := by
    rw [max_eq_right (by norm_num : (0:ℚ) ≤ 1 - 1 / 3)]
    norm_num
  unfold score round2
  rw [h1]
  have h2 : ⌊(2 / 3 : ℚ) * 100 * 100 + 1 / 2⌋ = 6667 := by
    rw [Int.floor_eq_iff]
    norm_num
  rw [h2]
  norm_num

/-- C4 (amended): each attached score is the two-decimal rounding of
`max (0, 1 - d) * 100`; for a nonnegative distance it lies in [0, 100];
and, whenever the engine honours the requested result count, a search
retrieves at most `min (limit, store size)` records. -/
theorem search_score_spec (c : Collection) (qf : QueryFn) (q : String)
    (l : ℕ) (hqf : (qf q (min l c.count)).length ≤ min l c.count)
    (d : ℚ) (hd : 0 ≤ d) :
    (search_in_cache c qf q l).length ≤ min l c.count ∧
    score d = round2 (max 0 (1 - d) * 100) ∧
    0 ≤ score d ∧ score d ≤ 100 := by
  refine ⟨?_, rfl, ?_, ?_⟩
  · unfold search_in_cache searchTrace
    by_cases h0 : c.count = 0
    · rw [if_pos h0]; simp
    · rw [if_neg h0]
      by_cases hr : qf q (min l c.count) = []
      · rw [if_pos hr]; simp
      · rw [if_neg hr]
        simpa using hqf
  · unfold score round2
    apply div_nonneg _ (by norm_num : (0:ℚ) ≤ 100)
    have hfl : (0:ℤ) ≤ ⌊max 0 (1 - d) * 100 * 100 + 1 / 2⌋ := by
      apply Int.le_floor.2
      push_cast
      have hx : (0:ℚ) ≤ max 0 (1 - d) * 100 * 100 := by positivity
      linarith
    exact_mod_cast hfl
  · unfold score round2
    rw [div_le_iff₀ (by norm_num : (0:ℚ) < 100)]
    have hm1 : max 0 (1 - d) ≤ 1 := max_le (by norm_num) (by linarith)
    have hm0 : (0:ℚ) ≤ max 0 (1 - d) := le_max_left 0 (1 - d)
    have hfl : ⌊max 0 (1 - d) * 100 * 100 + 1 / 2⌋ < 10001 := by
      apply Int.floor_lt.2
      push_cast
      nlinarith
    have hfl' : ⌊max 0 (1 - d) * 100 * 100 + 1 / 2⌋ ≤ 10000 := by omega
    calc ((⌊max 0 (1 - d) * 100 * 100 + 1 / 2⌋ : ℚ)) ≤ 10000 := by
          exact_mod_cast hfl'
      _ = 100 * 100 := by norm_num

/-- Witness for C4 at the sample store, the sample engine and distance 0:
the engine answer respects the requested count and the score facts hold. -/
theorem search_score_spec_witness :
    (sampleQf "gaming phone" (min 20 sampleStore.count)).length
      ≤ min 20 sampleStore.count ∧
    (0:ℚ) ≤ 0 ∧
    ((search_in_cache sampleStore sampleQf "gaming phone" 20).length
      ≤ min 20 sampleStore.count ∧
     score 0 = round2 (max 0 (1 - 0) * 100) ∧
     0 ≤ score 0 ∧ score 0 ≤ 100) :=
  ⟨by decide, le_refl 0,
   search_score_spec sampleStore sampleQf "gaming phone" 20 (by decide) 0
     (le_refl 0)⟩

/-- C1: in every `scrape_live_phones` call, a non-empty cache answer (of
any size, also below `max_phones`) is returned as cache-sourced and the
scraper is never invoked; and in every call the event trace starts with the
cache lookup, so any scrape happens strictly after it. -/
theorem cache_hit_stops (cache : Collection) (qf : QueryFn) (mAvail : Bool)
    (aiResp : Option String) (sAvail : Bool)
    (sf : String → ℕ → Option (List Phone)) (query : String) (maxPhones : ℕ) :
    (search_in_cache cache qf (enhance_query_with_ai mAvail query aiResp)
        maxPhones ≠ [] →
      (scrape_live_phones cache qf mAvail aiResp sAvail sf query
          maxPhones).phones
        = search_in_cache cache qf (enhance_query_with_ai mAvail query aiResp)
            maxPhones ∧
      (scrape_live_phones cache qf mAvail aiResp sAvail sf query
          maxPhones).fromCache = true ∧
      FetchEvent.scrapeCall ∉
        (scrape_live_phones cache qf mAvail aiResp sAvail sf query
          maxPhones).events) ∧
    ((scrape_live_phones cache qf mAvail aiResp sAvail sf query
        maxPhones).events = [FetchEvent.cacheLookup] ∨
     (scrape_live_phones cache qf mAvail aiResp sAvail sf query
        maxPhones).events
        = [FetchEvent.cacheLookup, FetchEvent.scrapeCall]) := by
  constructor
  · intro h
    simp only [scrape_live_phones]
    rw [if_pos h]
    exact ⟨rfl, rfl, by simp⟩
  · simp only [scrape_live_phones]
    by_cases h : search_in_cache cache qf
        (enhance_query_with_ai mAvail query aiResp) maxPhones ≠ []
    · rw [if_pos h]
      exact Or.inl rfl
    · rw [if_neg h]
      by_cases hs : ¬sAvail = true
      · rw [if_pos hs]
        exact Or.inl rfl
      · rw [if_neg hs]
        cases hsc : sf (enhance_query_with_ai mAvail query aiResp) maxPhones with
        | none => exact Or.inr rfl
        | some scraped =>
          by_cases hne : scraped ≠ []
          · right
            simp [hne]
          · obtain rfl : scraped = [] := not_not.1 hne
            right
            rfl

/-- Witness for C1: the sample store answers with a single record, below
the requested 20, and the call returns it cache-sourced, invokes no
scrape, and its trace is the pure cache lookup. -/
theorem cache_hit_stops_witness :
    (search_in_cache sampleStore sampleQf
        (enhance_query_with_ai false "gaming" none) 20 ≠ [] ∧
     (search_in_cache sampleStore sampleQf
        (enhance_query_with_ai false "gaming" none) 20).length < 20) ∧
    ((scrape_live_phones sampleStore sampleQf false none true
        (fun _ _ => some []) "gaming" 20).phones
      = search_in_cache sampleStore sampleQf
          (enhance_query_with_ai false "gaming" none) 20 ∧
     (scrape_live_phones sampleStore sampleQf false none true
        (fun _ _ => some []) "gaming" 20).fromCache = true ∧
     FetchEvent.scrapeCall ∉
       (scrape_live_phones sampleStore sampleQf false none true
         (fun _ _ => some []) "gaming" 20).events) ∧
    ((scrape_live_phones sampleStore sampleQf false none true
        (fun _ _ => some []) "gaming" 20).events = [FetchEvent.cacheLookup] ∨
     (scrape_live_phones sampleStore sampleQf false none true
        (fun _ _ => some []) "gaming" 20).events
        = [FetchEvent.cacheLookup, FetchEvent.scrapeCall]) := by
  have hne : search_in_cache sampleStore sampleQf
      (enhance_query_with_ai false "gaming" none) 20 ≠ [] := by
    simp [search_in_cache, searchTrace, sampleStore, sampleQf,
      Collection.count]
  have hlen : (search_in_cache sampleStore sampleQf
      (enhance_query_with_ai false "gaming" none) 20).length < 20 := by
    simp [search_in_cache, searchTrace, sampleStore, sampleQf,
      Collection.count]
  exact ⟨⟨hne, hlen⟩,
    (cache_hit_stops sampleStore sampleQf false none true
      (fun _ _ => some []) "gaming" 20).1 hne,
    (cache_hit_stops sampleStore sampleQf false none true
      (fun _ _ => some []) "gaming" 20).2⟩

/-- C10: a search hit that carries a distance is the stored metadata dict
with exactly the `_distance` and `_score` keys appended — both absent
from every stored record — while `get_all` returns that same stored dict
bare. -/
theorem search_hit_fields (c : Collection) (qf : QueryFn) (q : String)
    (l : ℕ) (pr : Meta × Option ℚ) (d : ℚ) (p : Phone)
    (h0 : ¬c.count = 0)
    (hmem : pr ∈ qf q (min l c.count))
    (hd : pr.2 = some d)
    (hp : pr.1 = phoneMeta p)
    (he : ∃ e ∈ c.entries, e.meta = phoneMeta p) :
    augmentHit pr ∈ search_in_cache c qf q l ∧
    augmentHit pr
      = phoneMeta p ++ [("_distance", Val.f d), ("_score", Val.f (score d))] ∧
    phoneMeta p ∈ get_all_cached_phones c ∧
    "_distance" ∉ (phoneMeta p).keys ∧
    "_score" ∉ (phoneMeta p).keys := by
  refine ⟨?_, ?_, ?_, ?_, ?_⟩
  · unfold search_in_cache searchTrace
    rw [if_neg h0, if_neg (List.ne_nil_of_mem hmem)]
    exact List.mem_map_of_mem augmentHit hmem
  · obtain ⟨m, od⟩ := pr
    obtain rfl : od = some d := hd
    obtain rfl : m = phoneMeta p := hp
    rfl
  · obtain ⟨e, hein, hmeta⟩ := he
    exact hmeta ▸ List.mem_map_of_mem Entry.meta hein
  · simp [phoneMeta, Meta.keys]
  · simp [phoneMeta, Meta.keys]

/-- Witness for C10: the sample store and engine, with the sample record
returned at distance 0. -/
theorem search_hit_fields_witness :
    (¬sampleStore.count = 0 ∧
     (phoneMeta samplePhone, some (0:ℚ))
        ∈ sampleQf "camera phone" (min 20 sampleStore.count) ∧
     (∃ e ∈ sampleStore.entries, e.meta = phoneMeta samplePhone)) ∧
    (augmentHit (phoneMeta samplePhone, some (0:ℚ))
        ∈ search_in_cache sampleStore sampleQf "camera phone" 20 ∧
     augmentHit (phoneMeta samplePhone, some (0:ℚ))
        = phoneMeta samplePhone ++
          [("_distance", Val.f 0), ("_score", Val.f (score 0))] ∧
     phoneMeta samplePhone ∈ get_all_cached_phones sampleStore ∧
     "_distance" ∉ (phoneMeta samplePhone).keys ∧
     "_score" ∉ (phoneMeta samplePhone).keys) :=
  ⟨⟨by decide, List.mem_singleton_self _,
    ⟨mkEntry samplePhone, List.mem_singleton_self _, rfl⟩⟩,
   search_hit_fields sampleStore sampleQf "camera phone" 20
     (phoneMeta samplePhone, some 0) 0 samplePhone (by decide)
     (List.mem_singleton_self _) rfl rfl
     ⟨mkEntry samplePhone, List.mem_singleton_self _, rfl⟩⟩

end PhoneRec
